import Mathlib

/-!
Verification development for the posts service of the blog backend
(`src/api/posts/posts.ctrl.js`, `src/api/posts/index.js`, `src/models/post.js`).

HTML bodies are embedded at token level: a body is a list of text runs and
open/close tags carrying attribute lists.  The external `sanitize-html`
collaborator is modelled per its documented allow-list contract (keep allowed
tags, drop disallowed ones while keeping text, filter attributes per tag and
URL schemes on `href`/`src`).  The document store is a list of posts keyed by
a numeric id (store-assigned, increasing), which also models MongoDB's
descending `_id` sort.  Randomness (`Math.random` in the thumbnail fallback)
is an explicit natural-number parameter.
-/

namespace BlogBackend

/-- A token of an HTML fragment: a text run, an opening tag with its
attribute list, or a closing tag. -/
inductive HtmlToken where
  | text (s : String)
  | tagOpen (name : String) (attrs : List (String × String))
  | tagClose (name : String)
  deriving DecidableEq, Repr

/-- Configuration for the sanitizer: allowed tag names, per-tag allowed
attribute names, and allowed URL schemes (from `posts.ctrl.js` lines 10-36). -/
structure SanitizeOptions where
  allowedTags : List String
  allowedAttributes : List (String × List String)
  allowedSchemes : List String
  deriving Repr

/-- The `sanitizeOption` constant of `posts.ctrl.js` (lines 10-36). -/
def sanitizeOption : SanitizeOptions :=
  { allowedTags := ["h1", "h2", "b", "i", "u", "s", "p", "ul", "ol", "li",
      "blockquote", "a", "img", "pre", "span"]
    allowedAttributes := [("a", ["href", "name", "target"]), ("img", ["src"]),
      ("li", ["class"]), ("pre", ["class", "spellcheck"]), ("span", ["class"])]
    allowedSchemes := ["data", "http"] }

/-- The URL scheme of an attribute value: the alphabetic prefix before the
first colon, when one exists (relative URLs have no scheme). -/
def schemeOf (v : String) : Option String :=
  let pre := v.data.takeWhile (fun c => c != ':')
  if pre.length < v.data.length ∧ 0 < pre.length ∧ pre.all Char.isAlpha then
    some (String.mk pre)
  else none

/-- Attributes whose values are URLs and subject to the scheme filter. -/
def isUrlAttr (name : String) : Bool := name == "href" || name == "src"

/-- Whether an attribute value's scheme passes the sanitizer's scheme filter. -/
def schemeAllowed (opts : SanitizeOptions) (v : String) : Bool :=
  match schemeOf v with
  | none => true
  | some sch => opts.allowedSchemes.contains sch

/-- Whether one attribute survives sanitization on a tag named `tagName`:
its name must be allow-listed for that tag, and URL attributes must carry an
allowed scheme.  Models the external `sanitize-html` attribute filter. -/
def attrAllowed (opts : SanitizeOptions) (tagName : String) (kv : String × String) : Bool :=
  match List.lookup tagName opts.allowedAttributes with
  | none => false
  | some names => names.contains kv.1 && (!isUrlAttr kv.1 || schemeAllowed opts kv.2)

/-- Sanitization of a single token: text is kept, allowed tags are kept with
their attributes filtered, disallowed tags are discarded (the library's
default `discard` mode keeps the text between them). -/
def sanitizeToken (opts : SanitizeOptions) : HtmlToken → Option HtmlToken
  | .text s => some (.text s)
  | .tagOpen n attrs =>
      if opts.allowedTags.contains n then
        some (.tagOpen n (attrs.filter (attrAllowed opts n)))
      else none
  | .tagClose n =>
      if opts.allowedTags.contains n then some (.tagClose n) else none

/-- Model of the external `sanitize-html` collaborator, per its documented
allow-list contract (the spec treats it as an opaque pure function). -/
def sanitizeHtml (body : List HtmlToken) (opts : SanitizeOptions) : List HtmlToken :=
  body.filterMap (sanitizeToken opts)

/-- Rendering of an attribute list back to HTML text. -/
def renderAttrs : List (String × String) → String
  | [] => ""
  | (k, v) :: rest => " " ++ k ++ "=\"" ++ v ++ "\"" ++ renderAttrs rest

/-- Rendering of one token back to HTML text. -/
def renderToken : HtmlToken → String
  | .text s => s
  | .tagOpen n attrs => "<" ++ n ++ renderAttrs attrs ++ ">"
  | .tagClose n => "</" ++ n ++ ">"

/-- Rendering of a token list back to the HTML string the JS code holds. -/
def renderHtml (body : List HtmlToken) : String :=
  (body.map renderToken).foldr (fun a b => a ++ b) ""

/-- The option object `\x7b allowedTags: ['p'] \x7d` passed to the sanitizer by
`removeHtmlAndShorten` (line 101-103); the library's default per-tag
attribute table has no entry for `p`, and its default schemes apply. -/
def excerptOptions : SanitizeOptions :=
  { allowedTags := ["p"]
    allowedAttributes := []
    allowedSchemes := ["http", "https", "ftp", "mailto"] }

/-- The excerpt builder `removeHtmlAndShorten` (lines 100-105): strip all
HTML except `p` tags; if the remaining text is shorter than 100 characters
return it unchanged, otherwise the first 100 characters plus `...`. -/
def removeHtmlAndShorten (body : List HtmlToken) : String :=
  let filtered := renderHtml (sanitizeHtml body excerptOptions)
  if filtered.length < 100 then filtered else filtered.take 100 ++ "..."

/-- The fallback image file names (line 108). -/
def imgArr : List String := ["img1.jpg", "img2.jpg", "img3.jpg", "img4.jpg", "img5.jpg"]

/-- The random fallback image tag (lines 109-113); `r` stands for the value
`Math.floor(Math.random() * imgArr.length)` drives, taken modulo 5. -/
def fallbackImage (r : Nat) : String :=
  "<img src=\"http://localhost:4000/" ++ imgArr.getD (r % imgArr.length) "" ++ "\"/>"

/-- Token-level reading of the regex `/<img[^>]*src=[^>]*>/`: an opening
`img` tag that carries a `src` attribute. -/
def isImgWithSrc : HtmlToken → Bool
  | .tagOpen n attrs => n == "img" && attrs.any (fun kv => kv.1 == "src")
  | _ => false

/-- `parseImageToBody` (lines 107-123).  The body is optional because the
update handler passes `nextData.body` even when the request omitted it; the
regex then runs on the string `"undefined"`, matches nothing, and the random
fallback is used — hence `none ↦ fallbackImage r`. -/
def parseImageToBody (r : Nat) (body : Option (List HtmlToken)) : String :=
  match body with
  | none => fallbackImage r
  | some b =>
    match b.find? isImgWithSrc with
    | some tok => renderToken tok
    | none => fallbackImage r

/-- The embedded owner snapshot of a post (`user` subdocument of the model
in `src/models/post.js`). -/
structure User where
  id : String
  username : String
  deriving DecidableEq, Repr

/-- A stored post (schema in `src/models/post.js`); `count` is optional
because documents may predate the field (`read` special-cases `undefined`). -/
structure Post where
  id : Nat
  title : String
  body : List HtmlToken
  image : String
  tags : List String
  count : Option Int
  user : User
  deriving DecidableEq, Repr

/-- `Post.findById`: first stored document with the given id. -/
def findById (store : List Post) (id : Nat) : Option Post :=
  store.find? (fun p => p.id == id)

/-- Largest id present in the store (0 when empty). -/
def maxId (store : List Post) : Nat :=
  store.foldr (fun p m => max p.id m) 0

/-- The id the store assigns to the next inserted document; ids increase
with insertion time, as MongoDB ObjectIds do. -/
def nextId (store : List Post) : Nat := maxId store + 1

/-- Replace every document with the given id by `doc`. -/
def replaceById (store : List Post) (id : Nat) (doc : Post) : List Post :=
  store.map (fun q => if q.id == id then doc else q)

/-- `Post.findByIdAndUpdate(id, doc, \x7b new: true \x7d)`: when the id resolves,
store `doc` under it and return the updated document; otherwise no change. -/
def findByIdAndUpdate (store : List Post) (id : Nat) (doc : Post) : Option Post × List Post :=
  match findById store id with
  | none => (none, store)
  | some _ => (some doc, replaceById store id doc)

/-- `Post.findByIdAndRemove(id)`: the removed document (when present) and
the remaining store. -/
def findByIdAndRemoveOp (store : List Post) (id : Nat) : Option Post × List Post :=
  (findById store id, store.filter (fun q => q.id != id))

/-- Joi's `Joi.string()` accepts only non-empty strings (empty strings fail
with `string.empty` unless `.allow('')` is configured, which this schema
does not do). -/
def joiNonEmptyString (s : String) : Bool := s != ""

/-- The request body of the write (create) endpoint; `none` marks an absent
field, which `Joi...required()` rejects. -/
structure WriteReq where
  title : Option String
  body : Option (List HtmlToken)
  tags : Option (List String)
  deriving Repr

/-- Outcome of the write controller: HTTP status, response body (the saved
post on success), and the store after the request. -/
structure WriteOutcome where
  status : Nat
  post : Option Post
  store : List Post
  deriving Repr

/-- The `write` controller (lines 67-98): validate with Joi (all three
fields required, strings non-empty, tags an array of non-empty strings);
then build the post with sanitized body, extracted image, `count = 0` and
the authenticated user, and save it.  `r` feeds the thumbnail fallback. -/
def write (store : List Post) (user : User) (r : Nat) (req : WriteReq) : WriteOutcome :=
  match req.title, req.body, req.tags with
  | some title, some body, some tags =>
    if joiNonEmptyString title && joiNonEmptyString (renderHtml body)
        && tags.all joiNonEmptyString then
      let post : Post :=
        { id := nextId store
          title := title
          body := sanitizeHtml body sanitizeOption
          image := parseImageToBody r (some body)
          tags := tags
          count := some 0
          user := user }
      { status := 200, post := some post, store := store ++ [post] }
    else { status := 400, post := none, store := store }
  | _, _, _ => { status := 400, post := none, store := store }

/-- The in-memory mutation of `read` (lines 160-169): initialize an
undefined `count` to 0, then increment when the current count is `>= 0`. -/
def readStep (p : Post) : Post :=
  let p1 := match p.count with
    | none => { p with count := some 0 }
    | some _ => p
  match p1.count with
  | some c => if 0 ≤ c then { p1 with count := some (c + 1) } else p1
  | none => p1

/-- Outcome of the read controller. -/
structure ReadOutcome where
  status : Nat
  post : Option Post
  store : List Post
  deriving Repr

/-- The `read` controller (lines 160-179), after `getPostById` has placed
the looked-up post in `ctx.state.post`: bump the count and persist the
whole document with `findByIdAndUpdate(..., \x7b new: true \x7d)`. -/
def read (store : List Post) (statePost : Post) : ReadOutcome :=
  let nextData := readStep statePost
  let res := findByIdAndUpdate store nextData.id nextData
  { status := 200, post := res.1, store := res.2 }

/-- Outcome of the remove controller. -/
structure RemoveOutcome where
  status : Nat
  store : List Post
  deriving Repr

/-- The `remove` controller (lines 182-190): remove by id and answer 204
whether or not a document was matched. -/
def removeCtrl (store : List Post) (id : Nat) : RemoveOutcome :=
  let res := findByIdAndRemoveOp store id
  { status := 204, store := res.2 }

/-- The request body of the update (PATCH) endpoint: any subset of the
three fields. -/
structure UpdateReq where
  title : Option String
  body : Option (List HtmlToken)
  tags : Option (List String)
  deriving Repr

/-- The Joi schema of `update` (lines 196-200): every present field must be
a (non-empty) string, resp. an array of non-empty strings. -/
def validateUpdate (req : UpdateReq) : Bool :=
  (match req.title with | some t => joiNonEmptyString t | none => true) &&
  (match req.body with | some b => joiNonEmptyString (renderHtml b) | none => true) &&
  (match req.tags with | some ts => ts.all joiNonEmptyString | none => true)

/-- Line 212-214: `if (nextData.body) nextData.body = sanitizeHtml(...)`.
The truthiness test means an empty body string would pass through
unsanitized, but Joi already rejected it. -/
def patchBody (b : List HtmlToken) : List HtmlToken :=
  if renderHtml b != "" then sanitizeHtml b sanitizeOption else b

/-- MongoDB's partial-update semantics for the `nextData` object built by
`update`: fields present in the patch overwrite, absent fields keep the
stored value; `image` is always present in the patch. -/
def applyPatch (p : Post) (req : UpdateReq) (image : String) : Post :=
  { p with
    title := req.title.getD p.title
    body := (req.body.map patchBody).getD p.body
    tags := req.tags.getD p.tags
    image := image }

/-- Outcome of the update controller. -/
structure UpdateOutcome where
  status : Nat
  post : Option Post
  store : List Post
  deriving Repr

/-- The `update` controller (lines 193-228): validate; set `nextData.image`
from the payload's `body` field (even when absent); sanitize a present
body; partial-update by id; 404 when the id does not resolve. -/
def update (store : List Post) (r : Nat) (id : Nat) (req : UpdateReq) : UpdateOutcome :=
  if validateUpdate req then
    let image := parseImageToBody r req.body
    match findById store id with
    | none => { status := 404, post := none, store := store }
    | some p =>
      let p2 := applyPatch p req image
      { status := 200, post := some p2, store := replaceById store id p2 }
  else { status := 400, post := none, store := store }

/-- `checkOwnPost` (lines 57-64): the request may proceed exactly when the
post's embedded owner id (as text) equals the authenticated user's id. -/
def checkOwnPost (userId : String) (p : Post) : Bool := p.user.id == userId

/-- The DELETE route middleware chain (index.js lines 23-29), after
`checkLoggedIn`: look up the post, check ownership (403 on mismatch,
store untouched), then run the remove controller.  Ids are modelled as
naturals, so `ObjectId.isValid` (the 400 branch of `getPostById`) is
always true here. -/
def deletePipeline (store : List Post) (userId : String) (id : Nat) : Nat × List Post :=
  match findById store id with
  | none => (404, store)
  | some p =>
    if checkOwnPost userId p then
      let res := removeCtrl store id
      (res.status, res.store)
    else (403, store)

/-- The PATCH route middleware chain (index.js lines 30-36), after
`checkLoggedIn`: look up, check ownership, then run the update
controller. -/
def updatePipeline (store : List Post) (userId : String) (r : Nat) (id : Nat)
    (req : UpdateReq) : UpdateOutcome :=
  match findById store id with
  | none => { status := 404, post := none, store := store }
  | some p =>
    if checkOwnPost userId p then update store r id req
    else { status := 403, post := none, store := store }

/-- Value of a digit run, most significant first. -/
def digitsToNat (ds : List Char) : Nat :=
  ds.foldl (fun a c => a * 10 + (c.toNat - 48)) 0

/-- The whitespace JavaScript's `parseInt` skips before the number. -/
def isJsSpace (c : Char) : Bool := c == ' ' || c == '\t' || c == '\n' || c == '\r'

/-- JavaScript's `parseInt(s, 10)`: skip leading whitespace, accept an
optional sign, read the longest digit prefix; `none` models `NaN` (no
digits at all). -/
def jsParseInt (s : String) : Option Int :=
  let cs := s.data.dropWhile isJsSpace
  match cs with
  | '-' :: rest =>
    let ds := rest.takeWhile Char.isDigit
    if ds.isEmpty then none else some (-(digitsToNat ds : Int))
  | '+' :: rest =>
    let ds := rest.takeWhile Char.isDigit
    if ds.isEmpty then none else some (digitsToNat ds : Int)
  | rest =>
    let ds := rest.takeWhile Char.isDigit
    if ds.isEmpty then none else some (digitsToNat ds : Int)

/-- The Mongo filter built by `list` (lines 135-138): a truthy `username`
constrains `user.username`, a truthy `tag` requires the tags array to
contain the value; falsy query values impose no constraint. -/
def matchesQuery (tag username : Option String) (p : Post) : Bool :=
  (match username with
   | some u => if u != "" then p.user.username == u else true
   | none => true) &&
  (match tag with
   | some t => if t != "" then p.tags.contains t else true
   | none => true)

/-- Descending-id order on posts, the meaning of `.sort(\x7b _id: -1 \x7d)`. -/
def idGe (a b : Post) : Prop := b.id ≤ a.id

instance : DecidableRel idGe := fun a b => Nat.decLe b.id a.id

instance : IsTotal Post idGe := ⟨fun a b => Nat.le_total b.id a.id⟩

instance : IsTrans Post idGe := ⟨fun _ _ _ hab hbc => Nat.le_trans hbc hab⟩

/-- The store's descending-id sort. -/
def sortByIdDesc (ps : List Post) : List Post := ps.insertionSort idGe

/-- A list-view entry: a post whose `body` has been replaced by the
excerpt string. -/
structure PostSummary where
  id : Nat
  title : String
  body : String
  image : String
  tags : List String
  count : Option Int
  user : User
  deriving DecidableEq, Repr

/-- The per-post mapping of `list`'s response body (lines 150-153). -/
def toSummary (p : Post) : PostSummary :=
  { id := p.id, title := p.title, body := removeHtmlAndShorten p.body,
    image := p.image, tags := p.tags, count := p.count, user := p.user }

/-- Outcome of the list controller; `lastPage` is the `Last-Page` response
header, `skipped` records the offset handed to the store's `skip` stage
(`none` models the `NaN` produced by a non-numeric page parameter). -/
structure ListOutcome where
  status : Nat
  posts : List PostSummary
  lastPage : Option Nat
  skipped : Option Int
  deriving Repr

/-- `ctx.query.page || '1'` (line 127): an absent or empty page parameter
falls back to the string `'1'`. -/
def effPageStr (q : Option String) : String :=
  match q with
  | none => "1"
  | some s => if s == "" then "1" else s

/-- The guard `page < 1` of line 128; on `NaN` (`none`) every comparison is
false, so the guard does not fire. -/
def pageBelowOne : Option Int → Bool
  | some n => decide (n < 1)
  | none => false

/-- The offset the store receives; negative offsets cannot reach this point
(the guard catches `page < 1`), and the store's treatment of a `NaN`
offset is outside this repository — no claim relies on the page content
in that case. -/
def mongoSkip : Option Int → Nat
  | some n => n.toNat
  | none => 0

/-- The `list` controller (lines 126-157): parse the page parameter, 400
when it is a number below 1; filter by tag/username, sort by descending
id, skip `(page-1)*20`, take 20; put `Math.ceil(postCount / 20)` — for
naturals `(postCount + 19) / 20` — in the `Last-Page` header; answer with
the page of posts, bodies replaced by excerpts. -/
def list (store : List Post) (pageQ tagQ usernameQ : Option String) : ListOutcome :=
  let page := jsParseInt (effPageStr pageQ)
  if pageBelowOne page then
    { status := 400, posts := [], lastPage := none, skipped := none }
  else
    let matching := store.filter (matchesQuery tagQ usernameQ)
    let sorted := sortByIdDesc matching
    let skip := page.map (fun n => (n - 1) * 20)
    let posts := (sorted.drop (mongoSkip skip)).take 20
    let postCount := matching.length
    { status := 200
      posts := posts.map toSummary
      lastPage := some ((postCount + 19) / 20)
      skipped := skip }

/-- The post the write controller saves on a valid request (`posts.ctrl.js`
lines 84-91). -/
def writtenPost (store : List Post) (user : User) (r : Nat)
    (title : String) (body : List HtmlToken) (tags : List String) : Post :=
  { id := nextId store
    title := title
    body := sanitizeHtml body sanitizeOption
    image := parseImageToBody r (some body)
    tags := tags
    count := some 0
    user := user }

/-- Whether a token's tag (if it is one) is on the given allow-list. -/
def tokenTagAllowed (opts : SanitizeOptions) : HtmlToken → Bool
  | .text _ => true
  | .tagOpen n _ => opts.allowedTags.contains n
  | .tagClose n => opts.allowedTags.contains n

theorem sanitizeHtml_tags_allowed (body : List HtmlToken) (opts : SanitizeOptions) :
    ∀ tok ∈ sanitizeHtml body opts, tokenTagAllowed opts tok = true := by
  intro tok htok
  rcases List.mem_filterMap.mp htok with ⟨a, _, hfa⟩
  cases a with
  | text s =>
    simp only [sanitizeToken, Option.some_inj] at hfa
    subst hfa
    rfl
  | tagOpen n attrs =>
    simp only [sanitizeToken] at hfa
    split at hfa
    · next hall =>
      cases hfa
      simpa [tokenTagAllowed] using hall
    · cases hfa
  | tagClose n =>
    simp only [sanitizeToken] at hfa
    split at hfa
    · next hall =>
      cases hfa
      simpa [tokenTagAllowed] using hall
    · cases hfa

theorem fallbackImage_ne_empty (r : Nat) : fallbackImage r ≠ "" := by
  intro h
  have hl : (fallbackImage r).length = 0 := by rw [h]; rfl
  simp only [fallbackImage, String.length_append] at hl
  have h1 : 0 < ("<img src=\"http://localhost:4000/" : String).length := by decide
  omega

theorem renderToken_tagOpen_ne_empty (n : String) (attrs : List (String × String)) :
    renderToken (.tagOpen n attrs) ≠ "" := by
  intro h
  have hl : (renderToken (.tagOpen n attrs)).length = 0 := by rw [h]; rfl
  simp only [renderToken, String.length_append] at hl
  have h1 : 0 < ("<" : String).length := by decide
  omega

theorem parseImageToBody_ne_empty (r : Nat) (body : Option (List HtmlToken)) :
    parseImageToBody r body ≠ "" := by
  cases body with
  | none => exact fallbackImage_ne_empty r
  | some b =>
    simp only [parseImageToBody]
    cases hfind : b.find? isImgWithSrc with
    | none => exact fallbackImage_ne_empty r
    | some tok =>
      have htok : isImgWithSrc tok = true := List.find?_some hfind
      cases tok with
      | text s => simp [isImgWithSrc] at htok
      | tagClose n => simp [isImgWithSrc] at htok
      | tagOpen n attrs => exact renderToken_tagOpen_ne_empty n attrs

theorem readStep_id (p : Post) : (readStep p).id = p.id := by
  unfold readStep
  cases h : p.count with
  | none => simp
  | some c =>
    simp only [h]
    split <;> rfl

theorem readStep_count (p : Post) (h : 0 ≤ p.count.getD 0) :
    (readStep p).count = some (p.count.getD 0 + 1) := by
  unfold readStep
  cases hc : p.count with
  | none => simp [hc]
  | some c =>
    simp only [hc, Option.getD_some] at h ⊢
    simp [h]

theorem readStep_frame (p : Post) :
    (readStep p).title = p.title ∧ (readStep p).body = p.body ∧
    (readStep p).image = p.image ∧ (readStep p).tags = p.tags ∧
    (readStep p).user = p.user := by
  unfold readStep
  cases h : p.count with
  | none => simp
  | some c =>
    simp only [h]
    split <;> simp

theorem mem_id_le_maxId {p : Post} {store : List Post} (h : p ∈ store) :
    p.id ≤ maxId store := by
  induction store with
  | nil => cases h
  | cons q qs ih =>
    rcases List.mem_cons.mp h with rfl | hmem
    · exact Nat.le_max_left _ _
    · exact Nat.le_trans (ih hmem) (Nat.le_max_right _ _)

theorem findById_append_fresh (store : List Post) (p : Post)
    (h : ∀ q ∈ store, q.id ≠ p.id) : findById (store ++ [p]) p.id = some p := by
  induction store with
  | nil => simp [findById]
  | cons q qs ih =>
    have hq : (q.id == p.id) = false :=
      beq_eq_false_iff_ne.mpr (h q (List.mem_cons_self q qs))
    simp only [List.cons_append, findById, List.find?, hq]
    exact ih (fun x hx => h x (List.mem_cons_of_mem q hx))

theorem findById_append_nextId (store : List Post) (p : Post)
    (hp : p.id = nextId store) : findById (store ++ [p]) p.id = some p := by
  apply findById_append_fresh
  intro q hq hiq
  have hle := mem_id_le_maxId hq
  rw [hiq, hp] at hle
  simp only [nextId] at hle
  omega

theorem findById_some {store : List Post} {i : Nat} {p : Post}
    (h : findById store i = some p) : p ∈ store ∧ p.id = i := by
  refine ⟨List.mem_of_find?_eq_some h, ?_⟩
  have := List.find?_some h
  simpa using this

theorem findById_replaceById (store : List Post) (i : Nat) (doc p : Post)
    (hdoc : doc.id = i) (hfound : findById store i = some p) :
    findById (replaceById store i doc) i = some doc := by
  induction store with
  | nil => simp [findById] at hfound
  | cons q qs ih =>
    by_cases hq : q.id = i
    · have hq' : (q.id == i) = true := beq_iff_eq.mpr hq
      have hd : (doc.id == i) = true := beq_iff_eq.mpr hdoc
      simp [replaceById, findById, List.find?, hq', hd]
    · have hq' : (q.id == i) = false := beq_eq_false_iff_ne.mpr hq
      simp only [findById, List.find?, hq'] at hfound
      have := ih hfound
      simp only [replaceById, List.map_cons, hq', Bool.false_eq_true, if_false,
        findById, List.find?] at this ⊢
      simp only [hq', this]

theorem write_eq (store : List Post) (user : User) (r : Nat)
    (title : String) (body : List HtmlToken) (tags : List String)
    (ht : title ≠ "") (hb : renderHtml body ≠ "") (htags : ∀ t ∈ tags, t ≠ "") :
    write store user r ⟨some title, some body, some tags⟩ =
      { status := 200, post := some (writtenPost store user r title body tags),
        store := store ++ [writtenPost store user r title body tags] } := by
  have h1 : joiNonEmptyString title = true := by simp [joiNonEmptyString, ht]
  have h2 : joiNonEmptyString (renderHtml body) = true := by simp [joiNonEmptyString, hb]
  have h3 : tags.all joiNonEmptyString = true :=
    List.all_eq_true.mpr (fun t htmem => by simp [joiNonEmptyString, htags t htmem])
  simp [write, h1, h2, h3, writtenPost]

theorem update_eq (store : List Post) (r : Nat) (i : Nat) (p : Post) (req : UpdateReq)
    (hv : validateUpdate req = true) (hfind : findById store i = some p) :
    update store r i req =
      { status := 200,
        post := some (applyPatch p req (parseImageToBody r req.body)),
        store := replaceById store i (applyPatch p req (parseImageToBody r req.body)) } := by
  simp [update, hv, hfind]

theorem validateUpdate_dropBody (req : UpdateReq) (hv : validateUpdate req = true) :
    validateUpdate ⟨req.title, none, req.tags⟩ = true := by
  unfold validateUpdate at hv ⊢
  simp only [Bool.and_eq_true] at hv ⊢
  exact ⟨⟨hv.1.1, trivial⟩, hv.2⟩

theorem validateUpdate_tagsOnly (ts : List String) (h : ∀ t ∈ ts, t ≠ "") :
    validateUpdate ⟨none, none, some ts⟩ = true := by
  unfold validateUpdate
  simp only [Bool.and_eq_true]
  refine ⟨⟨trivial, trivial⟩, ?_⟩
  exact List.all_eq_true.mpr (fun t htmem => by simp [joiNonEmptyString, h t htmem])

/-- Claim C7: the delete operation answers 204 (no content) for every store
and every id — also when the removal matched no stored document — and the
not-found case of the repository is never surfaced as an error; the store
keeps exactly the documents with a different id. -/
theorem c7_remove_always_204 (store : List Post) (i : Nat) :
    (removeCtrl store i).status = 204 ∧
    (removeCtrl store i).store = store.filter (fun q => q.id != i) :=
  ⟨rfl, rfl⟩

/-- A paragraph-only body rendering to exactly 150 characters. -/
def c8Body150 : List HtmlToken :=
  [.tagOpen "p" [], .text (String.mk (List.replicate 143 'a')), .tagClose "p"]

/-- A paragraph-only body rendering to exactly 50 characters. -/
def c8Body50 : List HtmlToken :=
  [.tagOpen "p" [], .text (String.mk (List.replicate 43 'a')), .tagClose "p"]

/-- First 100 characters of the 150-character body followed by `...`. -/
def c8Result103 : String := "<p>" ++ String.mk (List.replicate 97 'a') ++ "..."

theorem stringTake_length (s : String) (n : Nat) : (s.take n).length = min n s.length := by
  show (s.take n).data.length = min n s.length
  rw [String.data_take, List.length_take]
  rfl

set_option maxRecDepth 4096 in
/-- Claim C8: the excerpt builder strips all HTML except paragraph tags; a
stripped result shorter than 100 characters is returned unchanged, and
otherwise the first 100 characters followed by the ellipsis marker (so the
result never exceeds 103 characters); the 150-character paragraph-only body
yields the 103-character string ending in `...`, and the 50-character body
comes back unchanged. -/
theorem c8_excerpt (body : List HtmlToken) :
    removeHtmlAndShorten body =
      (if (renderHtml (sanitizeHtml body excerptOptions)).length < 100
       then renderHtml (sanitizeHtml body excerptOptions)
       else (renderHtml (sanitizeHtml body excerptOptions)).take 100 ++ "...") ∧
    (removeHtmlAndShorten body).length ≤ 103 ∧
    removeHtmlAndShorten c8Body150 = c8Result103 ∧
    (removeHtmlAndShorten c8Body150).length = 103 ∧
    removeHtmlAndShorten c8Body50 = renderHtml c8Body50 ∧
    (removeHtmlAndShorten c8Body50).length = 50 := by
  refine ⟨rfl, ?_, by decide, by decide, by decide, by decide⟩
  unfold removeHtmlAndShorten
  by_cases hlen : (renderHtml (sanitizeHtml body excerptOptions)).length < 100
  · simp only [hlen, if_true]
    omega
  · simp only [hlen, if_false]
    rw [String.length_append, stringTake_length]
    have h3 : ("..." : String).length = 3 := rfl
    omega

/-- Claim C10: the list guard answers 400 exactly when the page query
parses (as `parseInt`) to an integer strictly below 1; a page value that
parses to `NaN` does not trip the guard — the request goes on to query the
store with a `NaN` skip offset and still computes the Last-Page header. -/
theorem c10_list_nan_page (store : List Post) (pageQ tagQ usernameQ : Option String)
    (hnan : jsParseInt (effPageStr pageQ) = none) :
    (list store pageQ tagQ usernameQ).status = 200 ∧
    (list store pageQ tagQ usernameQ).skipped = none ∧
    (list store pageQ tagQ usernameQ).lastPage =
      some (((store.filter (matchesQuery tagQ usernameQ)).length + 19) / 20) ∧
    ∀ pq : Option String,
      ((list store pq tagQ usernameQ).status = 400 ↔
        ∃ n : Int, jsParseInt (effPageStr pq) = some n ∧ n < 1) := by
  refine ⟨?_, ?_, ?_, ?_⟩
  · simp [list, hnan, pageBelowOne]
  · simp [list, hnan, pageBelowOne]
  · simp [list, hnan, pageBelowOne]
  · intro pq
    cases h : jsParseInt (effPageStr pq) with
    | none =>
      constructor
      · intro habs
        simp [list, h, pageBelowOne] at habs
      · rintro ⟨n, hn, -⟩
        cases hn
    | some n =>
      by_cases hlt : n < 1
      · constructor
        · intro _
          exact ⟨n, rfl, hlt⟩
        · intro _
          simp [list, h, pageBelowOne, hlt]
      · constructor
        · intro habs
          simp [list, h, pageBelowOne, hlt] at habs
        · rintro ⟨m, hm, hm1⟩
          cases hm
          exact absurd hm1 hlt

/-- Concrete instance for claim C10: the page value `abc` parses to `NaN`,
the guard does not fire, and the store query proceeds with a `NaN` skip. -/
theorem c10_list_nan_page_witness :
    (list [] (some "abc") none none).status = 200 ∧
    (list [] (some "abc") none none).skipped = none := by
  have h := c10_list_nan_page [] (some "abc") none none (by decide)
  exact ⟨h.1, h.2.1⟩

/-- A concrete stored post used by several concrete instances. -/
def samplePost : Post :=
  { id := 1, title := "t", body := [.text "b"], image := "i", tags := ["x"],
    count := some 0, user := { id := "owner", username := "alice" } }

/-- Claim C4: when the authenticated requester's identity differs (as text)
from the looked-up post's embedded owner id, both the delete and the update
pipelines answer 403 before the mutating step: the store is unchanged (the
entity is neither modified nor removed) and no updated entity is produced. -/
theorem c4_ownership_forbidden (store : List Post) (userId : String) (i : Nat)
    (p : Post) (r : Nat) (req : UpdateReq)
    (hfind : findById store i = some p) (hown : p.user.id ≠ userId) :
    deletePipeline store userId i = (403, store) ∧
    (updatePipeline store userId r i req).status = 403 ∧
    (updatePipeline store userId r i req).store = store ∧
    (updatePipeline store userId r i req).post = none := by
  have hchk : checkOwnPost userId p = false := by
    simp [checkOwnPost, hown]
  refine ⟨?_, ?_, ?_, ?_⟩ <;> simp [deletePipeline, updatePipeline, hfind, hchk]

/-- Concrete instance for claim C4: a requester distinct from the owner is
turned away with 403 by both pipelines and the store is untouched. -/
theorem c4_ownership_forbidden_witness :
    deletePipeline [samplePost] "intruder" 1 = (403, [samplePost]) ∧
    (updatePipeline [samplePost] "intruder" 0 1 ⟨some "h", none, none⟩).status = 403 ∧
    (updatePipeline [samplePost] "intruder" 0 1 ⟨some "h", none, none⟩).store = [samplePost] := by
  have h := c4_ownership_forbidden [samplePost] "intruder" 1 samplePost 0
    ⟨some "h", none, none⟩ (by decide) (by decide)
  exact ⟨h.1, h.2.1, h.2.2.1⟩

/-- Claim C5: for every valid update input the updated entity's image is
the thumbnail extractor run on the input payload's body value — never on
the stored body — so an update that omits body still overwrites image with
the extractor's result on the absent value, i.e. the random fallback. -/
theorem c5_update_image_from_payload (store : List Post) (r : Nat) (i : Nat)
    (p : Post) (req : UpdateReq)
    (hv : validateUpdate req = true) (hfind : findById store i = some p) :
    (update store r i req).post =
      some (applyPatch p req (parseImageToBody r req.body)) ∧
    (update store r i req).post.map Post.image = some (parseImageToBody r req.body) ∧
    (update store r i ⟨req.title, none, req.tags⟩).post.map Post.image =
      some (fallbackImage r) := by
  have h1 := update_eq store r i p req hv hfind
  have hv2 := validateUpdate_dropBody req hv
  have h2 := update_eq store r i p ⟨req.title, none, req.tags⟩ hv2 hfind
  refine ⟨?_, ?_, ?_⟩
  · rw [h1]
  · rw [h1]
    simp [applyPatch]
  · rw [h2]
    simp [applyPatch, parseImageToBody]

/-- Concrete instance for claim C5: updating only the tags overwrites the
stored image `"i"` with the random fallback computed from the absent body. -/
theorem c5_update_image_from_payload_witness :
    (update [samplePost] 2 1 ⟨none, none, some ["y"]⟩).post.map Post.image =
      some (fallbackImage 2) := by
  have h := c5_update_image_from_payload [samplePost] 2 1 samplePost
    ⟨none, none, some ["y"]⟩ (by decide) (by decide)
  exact h.2.2

/-- Claim C9: fields absent from a valid update input keep their prior
stored values (title, body, tags each fall back to the stored value when
the patch omits them; count and user are never patched); in particular an
update supplying only tags leaves title and body unchanged while still
recomputing the image from the absent body. -/
theorem c9_update_frame (store : List Post) (r : Nat) (i : Nat) (p : Post)
    (req : UpdateReq) (ts2 : List String)
    (hv : validateUpdate req = true) (hfind : findById store i = some p)
    (hts2 : ∀ t ∈ ts2, t ≠ "") :
    ((update store r i req).post.map Post.title = some (req.title.getD p.title) ∧
     (update store r i req).post.map Post.body =
       some ((req.body.map patchBody).getD p.body) ∧
     (update store r i req).post.map Post.tags = some (req.tags.getD p.tags) ∧
     (update store r i req).post.map Post.count = some p.count ∧
     (update store r i req).post.map Post.user = some p.user) ∧
    ((update store r i ⟨none, none, some ts2⟩).post.map Post.title = some p.title ∧
     (update store r i ⟨none, none, some ts2⟩).post.map Post.body = some p.body ∧
     (update store r i ⟨none, none, some ts2⟩).post.map Post.tags = some ts2 ∧
     (update store r i ⟨none, none, some ts2⟩).post.map Post.image =
       some (parseImageToBody r none)) := by
  have h1 := update_eq store r i p req hv hfind
  have hv2 := validateUpdate_tagsOnly ts2 hts2
  have h2 := update_eq store r i p ⟨none, none, some ts2⟩ hv2 hfind
  constructor
  · rw [h1]
    simp [applyPatch]
  · rw [h2]
    simp [applyPatch]

/-- Concrete instance for claim C9: an update carrying only tags keeps the
stored title and body. -/
theorem c9_update_frame_witness :
    (update [samplePost] 0 1 ⟨none, none, some ["y"]⟩).post.map Post.title =
      some samplePost.title ∧
    (update [samplePost] 0 1 ⟨none, none, some ["y"]⟩).post.map Post.body =
      some samplePost.body ∧
    (update [samplePost] 0 1 ⟨none, none, some ["y"]⟩).post.map Post.tags = some ["y"] := by
  have h := c9_update_frame [samplePost] 0 1 samplePost ⟨none, none, some ["y"]⟩ ["y"]
    (by decide) (by decide) (by decide)
  exact ⟨h.2.1, h.2.2.1, h.2.2.2.1⟩

/-- Claim C1: for every page p ≥ 1 (as parsed from the page query) and any
combination of tag/username filters, list answers 200 with at most 20
entities — exactly the slice of the matching entities sorted by descending
id (a sorted permutation of the matching set) that skips the first
(p-1)*20, each reduced to its summary — and the Last-Page field is
ceil(totalCount/20): the least number of pages covering totalCount. -/
theorem c1_list_pagination (store : List Post) (pageQ tagQ usernameQ : Option String)
    (p : Int) (hp : jsParseInt (effPageStr pageQ) = some p) (hp1 : 1 ≤ p) :
    (list store pageQ tagQ usernameQ).status = 200 ∧
    (list store pageQ tagQ usernameQ).posts =
      (((sortByIdDesc (store.filter (matchesQuery tagQ usernameQ))).drop
          (((p - 1) * 20).toNat)).take 20).map toSummary ∧
    (list store pageQ tagQ usernameQ).posts.length ≤ 20 ∧
    List.Sorted idGe (sortByIdDesc (store.filter (matchesQuery tagQ usernameQ))) ∧
    (sortByIdDesc (store.filter (matchesQuery tagQ usernameQ))).Perm
      (store.filter (matchesQuery tagQ usernameQ)) ∧
    (list store pageQ tagQ usernameQ).lastPage =
      some (((store.filter (matchesQuery tagQ usernameQ)).length + 19) / 20) ∧
    (store.filter (matchesQuery tagQ usernameQ)).length ≤
      20 * (((store.filter (matchesQuery tagQ usernameQ)).length + 19) / 20) ∧
    20 * (((store.filter (matchesQuery tagQ usernameQ)).length + 19) / 20) <
      (store.filter (matchesQuery tagQ usernameQ)).length + 20 := by
  have hnot : ¬ p < 1 := by omega
  have hposts : (list store pageQ tagQ usernameQ).posts =
      (((sortByIdDesc (store.filter (matchesQuery tagQ usernameQ))).drop
          (((p - 1) * 20).toNat)).take 20).map toSummary := by
    simp [list, hp, pageBelowOne, hnot, mongoSkip]
  refine ⟨?_, hposts, ?_, ?_, List.perm_insertionSort idGe _, ?_, ?_, ?_⟩
  · simp [list, hp, pageBelowOne, hnot]
  · rw [hposts, List.length_map]
    exact List.length_take_le _ _
  · exact List.sorted_insertionSort idGe _
  · simp [list, hp, pageBelowOne, hnot]
  · omega
  · omega

/-- A post tagged `go` with store-assigned id `i + 1`. -/
def c1Post (i : Nat) : Post :=
  { id := i + 1, title := "t", body := [.text "b"], image := "i", tags := ["go"],
    count := some 0, user := { id := "u", username := "alice" } }

/-- A store holding 25 posts tagged `go`. -/
def c1Store : List Post := (List.range 25).map c1Post

set_option maxRecDepth 8192 in
/-- Concrete instance for claim C1, matching the spec's example: listing
page 1 of a store with 25 posts tagged `go` returns at most 20 entities
and Last-Page 2. -/
theorem c1_list_pagination_witness :
    1 ≤ (1 : Int) ∧
    (list c1Store (some "1") (some "go") none).status = 200 ∧
    (list c1Store (some "1") (some "go") none).posts.length ≤ 20 ∧
    (list c1Store (some "1") (some "go") none).lastPage = some 2 := by
  have h := c1_list_pagination c1Store (some "1") (some "go") none 1 (by decide) (by decide)
  refine ⟨by decide, h.1, h.2.2.1, ?_⟩
  rw [h.2.2.2.2.2.1]
  decide

/-- Claim C2 counterexample: create inputs whose three fields are all
present and of the claimed types (title a string, body a string, tags a
sequence of strings) can still be rejected, because Joi's `string()`
refuses empty strings: an empty title, an empty body, or an empty-string
tag each make the operation answer 400 with no saved entity, instead of
succeeding. -/
theorem c2_counterexample :
    (write [] ⟨"u1", "alice"⟩ 0 ⟨some "", some [.text "hi"], some ["t"]⟩).status = 400 ∧
    (write [] ⟨"u1", "alice"⟩ 0 ⟨some "t", some [], some ["t"]⟩).status = 400 ∧
    (write [] ⟨"u1", "alice"⟩ 0 ⟨some "t", some [.text "hi"], some [""]⟩).status = 400 ∧
    (write [] ⟨"u1", "alice"⟩ 0 ⟨some "", some [.text "hi"], some ["t"]⟩).post = none := by
  decide

/-- Claim C2 (amended): for every create input where title is a non-empty
string, body is a non-empty string and tags is a sequence of non-empty
strings (all present), the create operation succeeds and the returned
saved entity has count 0, a non-empty image, the caller's identity
attached as user, and a body containing no tag outside the sanitizer's
allow-list. -/
theorem c2_write_success (store : List Post) (user : User) (r : Nat)
    (title : String) (body : List HtmlToken) (tags : List String)
    (ht : title ≠ "") (hb : renderHtml body ≠ "") (htags : ∀ t ∈ tags, t ≠ "") :
    (write store user r ⟨some title, some body, some tags⟩).status = 200 ∧
    (write store user r ⟨some title, some body, some tags⟩).post =
      some (writtenPost store user r title body tags) ∧
    (write store user r ⟨some title, some body, some tags⟩).store =
      store ++ [writtenPost store user r title body tags] ∧
    (writtenPost store user r title body tags).count = some 0 ∧
    (writtenPost store user r title body tags).image ≠ "" ∧
    (writtenPost store user r title body tags).user = user ∧
    ∀ tok ∈ (writtenPost store user r title body tags).body,
      tokenTagAllowed sanitizeOption tok = true := by
  have he := write_eq store user r title body tags ht hb htags
  refine ⟨by rw [he], by rw [he], by rw [he], rfl, ?_, rfl, ?_⟩
  · exact parseImageToBody_ne_empty r (some body)
  · exact sanitizeHtml_tags_allowed body sanitizeOption

/-- Concrete instance for claim C2 (amended): a creation with non-empty
fields succeeds with count 0 and a non-empty image. -/
theorem c2_write_success_witness :
    (write [] ⟨"u1", "alice"⟩ 3 ⟨some "hello", some [.text "hi"], some ["go"]⟩).status = 200 ∧
    (writtenPost [] ⟨"u1", "alice"⟩ 3 "hello" [.text "hi"] ["go"]).count = some 0 ∧
    (writtenPost [] ⟨"u1", "alice"⟩ 3 "hello" [.text "hi"] ["go"]).image ≠ "" := by
  have h := c2_write_success [] ⟨"u1", "alice"⟩ 3 "hello" [.text "hi"] ["go"]
    (by decide) (by decide) (by decide)
  exact ⟨h.1, h.2.2.2.1, h.2.2.2.2.1⟩

/-- Claim C3: on a stored post satisfying the count invariant, read
increments count by exactly one (an absent count is initialized to 0
first), persists the updated entity in place, and returns it; creating a
post and then reading it by id yields count 1, and reading the result
again yields count 2. -/
theorem c3_read_increments (store : List Post) (q : Post) (user : User) (r : Nat)
    (title : String) (body : List HtmlToken) (tags : List String)
    (hq : 0 ≤ q.count.getD 0) (hmem : findById store q.id = some q)
    (ht : title ≠ "") (hb : renderHtml body ≠ "") (htags : ∀ t ∈ tags, t ≠ "") :
    (readStep q).count = some (q.count.getD 0 + 1) ∧
    (read store q).status = 200 ∧
    (read store q).post = some (readStep q) ∧
    (read store q).store = replaceById store q.id (readStep q) ∧
    (write store user r ⟨some title, some body, some tags⟩).store =
      store ++ [writtenPost store user r title body tags] ∧
    (read (store ++ [writtenPost store user r title body tags])
        (writtenPost store user r title body tags)).post =
      some (readStep (writtenPost store user r title body tags)) ∧
    (readStep (writtenPost store user r title body tags)).count = some 1 ∧
    findById
      (read (store ++ [writtenPost store user r title body tags])
        (writtenPost store user r title body tags)).store (nextId store) =
      some (readStep (writtenPost store user r title body tags)) ∧
    (read
        (read (store ++ [writtenPost store user r title body tags])
          (writtenPost store user r title body tags)).store
        (readStep (writtenPost store user r title body tags))).post =
      some (readStep (readStep (writtenPost store user r title body tags))) ∧
    (readStep (readStep (writtenPost store user r title body tags))).count = some 2 := by
  have hgen : read store q =
      { status := 200, post := some (readStep q),
        store := replaceById store q.id (readStep q) } := by
    unfold read findByIdAndUpdate
    simp only [readStep_id, hmem]
  have he := write_eq store user r title body tags ht hb htags
  have hfound : findById (store ++ [writtenPost store user r title body tags])
      (writtenPost store user r title body tags).id =
      some (writtenPost store user r title body tags) :=
    findById_append_nextId store (writtenPost store user r title body tags) rfl
  have hread1 : read (store ++ [writtenPost store user r title body tags])
      (writtenPost store user r title body tags) =
      { status := 200,
        post := some (readStep (writtenPost store user r title body tags)),
        store := replaceById (store ++ [writtenPost store user r title body tags])
          (writtenPost store user r title body tags).id
          (readStep (writtenPost store user r title body tags)) } := by
    unfold read findByIdAndUpdate
    simp only [readStep_id, hfound]
  have hc1 : (readStep (writtenPost store user r title body tags)).count = some 1 := by
    rw [readStep_count]
    · rfl
    · rfl
  have hfind2 : findById
      (replaceById (store ++ [writtenPost store user r title body tags])
        (writtenPost store user r title body tags).id
        (readStep (writtenPost store user r title body tags)))
      (writtenPost store user r title body tags).id =
      some (readStep (writtenPost store user r title body tags)) :=
    findById_replaceById _ _ _ _ (readStep_id _) hfound
  have hread2 : read
      (replaceById (store ++ [writtenPost store user r title body tags])
        (writtenPost store user r title body tags).id
        (readStep (writtenPost store user r title body tags)))
      (readStep (writtenPost store user r title body tags)) =
      { status := 200,
        post := some (readStep (readStep (writtenPost store user r title body tags))),
        store := replaceById
          (replaceById (store ++ [writtenPost store user r title body tags])
            (writtenPost store user r title body tags).id
            (readStep (writtenPost store user r title body tags)))
          (writtenPost store user r title body tags).id
          (readStep (readStep (writtenPost store user r title body tags))) } := by
    unfold read findByIdAndUpdate
    simp only [readStep_id, hfind2]
  have hc2 : (readStep (readStep (writtenPost store user r title body tags))).count =
      some 2 := by
    rw [readStep_count]
    · rw [hc1]
      rfl
    · rw [hc1]
      decide
  refine ⟨readStep_count q hq, ?_, ?_, ?_, by rw [he], ?_, hc1, ?_, ?_, hc2⟩
  · rw [hgen]
  · rw [hgen]
  · rw [hgen]
  · rw [hread1]
  · rw [hread1]
    exact hfind2
  · rw [hread1, hread2]

/-- Concrete instance for claim C3: reading the freshly created sample
post yields count 1, and reading the result again yields count 2. -/
theorem c3_read_increments_witness :
    (readStep samplePost).count = some 1 ∧
    (readStep (writtenPost [samplePost] ⟨"u1", "alice"⟩ 0 "hello" [.text "hi"] ["go"])).count =
      some 1 ∧
    (readStep (readStep
      (writtenPost [samplePost] ⟨"u1", "alice"⟩ 0 "hello" [.text "hi"] ["go"]))).count =
      some 2 := by
  have h := c3_read_increments [samplePost] samplePost ⟨"u1", "alice"⟩ 0 "hello"
    [.text "hi"] ["go"] (by decide) (by decide) (by decide) (by decide) (by decide)
  refine ⟨h.1.trans (by decide), h.2.2.2.2.2.2.1, h.2.2.2.2.2.2.2.2.2⟩

/-- A raw body whose first token is an img tag with an allowed src. -/
def c6RawBody : List HtmlToken := [.tagOpen "img" [("src", "http://a")], .text "hello"]

/-- A raw body whose img tag carries a disallowed `onclick` attribute. -/
def c6RawBody2 : List HtmlToken := [.tagOpen "img" [("src", "http://a"), ("onclick", "x")]]

/-- The creation of a post from `c6RawBody`. -/
def c6Write : WriteOutcome := write [] ⟨"u1", "alice"⟩ 0 ⟨some "t", some c6RawBody, some ["x"]⟩

/-- A tags-only update of that post (random source 1). -/
def c6Update : UpdateOutcome := update c6Write.store 1 1 ⟨none, none, some ["y"]⟩

/-- The creation of a post from `c6RawBody2`. -/
def c6Write2 : WriteOutcome := write [] ⟨"u1", "alice"⟩ 0 ⟨some "t", some c6RawBody2, some ["x"]⟩

/-- Claim C6 counterexample: the stored image is not always consistent with
the last saved body, and image is not recomputed exactly when body changes.
First, a tags-only update leaves the saved body unchanged yet still
recomputes image (the stored image changes to the random fallback).
Second, after a create whose raw body held an img tag with an extra
`onclick` attribute, the extracted tag kept verbatim in image differs from
the rendering of every token of the saved sanitized body (the sanitizer
stripped the attribute), so the stored tag does not appear in the saved
body. -/
theorem c6_counterexample :
    (c6Update.post.map Post.body = c6Write.post.map Post.body ∧
     c6Update.post.map Post.image ≠ c6Write.post.map Post.image) ∧
    (c6Write2.post.map Post.image =
       some (renderToken (.tagOpen "img" [("src", "http://a"), ("onclick", "x")])) ∧
     c6Write2.post.map Post.body = some [HtmlToken.tagOpen "img" [("src", "http://a")]] ∧
     renderToken (HtmlToken.tagOpen "img" [("src", "http://a")]) ≠
       renderToken (HtmlToken.tagOpen "img" [("src", "http://a"), ("onclick", "x")])) := by
  decide

/-- Claim C6 (amended): image is recomputed from the input payload's raw
body at every create and at every update — even when the update's body is
absent or unchanged, so consistency with the stored body is not preserved
by tags-only updates; after a create, whenever the raw body contains an
img tag with a src attribute, the stored image is exactly that first tag
rendered from the raw body, and the saved sanitized body contains the same
tag with its attributes filtered to the allow-list. -/
theorem c6_image_amended (store : List Post) (user : User) (r r2 : Nat)
    (title : String) (body : List HtmlToken) (tags : List String) (req : UpdateReq)
    (tok : HtmlToken)
    (ht : title ≠ "") (hb : renderHtml body ≠ "") (htags : ∀ t ∈ tags, t ≠ "")
    (himg : body.find? isImgWithSrc = some tok)
    (hv : validateUpdate req = true) :
    (write store user r ⟨some title, some body, some tags⟩).post.map Post.image =
      some (renderToken tok) ∧
    (∃ attrs, tok = HtmlToken.tagOpen "img" attrs ∧
      HtmlToken.tagOpen "img" (attrs.filter (attrAllowed sanitizeOption "img")) ∈
        (writtenPost store user r title body tags).body) ∧
    (update (write store user r ⟨some title, some body, some tags⟩).store r2
        (nextId store) req).post.map Post.image =
      some (parseImageToBody r2 req.body) := by
  have he := write_eq store user r title body tags ht hb htags
  have htok : isImgWithSrc tok = true := List.find?_some himg
  have hmemtok : tok ∈ body := List.mem_of_find?_eq_some himg
  refine ⟨?_, ?_, ?_⟩
  · rw [he]
    simp [writtenPost, parseImageToBody, himg]
  · cases tok with
    | text s => simp [isImgWithSrc] at htok
    | tagClose n => simp [isImgWithSrc] at htok
    | tagOpen n attrs =>
      have hn : n = "img" := by
        simp only [isImgWithSrc, Bool.and_eq_true, beq_iff_eq] at htok
        exact htok.1
      subst hn
      refine ⟨attrs, rfl, ?_⟩
      apply List.mem_filterMap.mpr
      refine ⟨HtmlToken.tagOpen "img" attrs, hmemtok, ?_⟩
      simp [sanitizeToken, sanitizeOption]
  · have hfound : findById (store ++ [writtenPost store user r title body tags])
        (nextId store) = some (writtenPost store user r title body tags) :=
      findById_append_nextId store (writtenPost store user r title body tags) rfl
    have hupd := update_eq (store ++ [writtenPost store user r title body tags]) r2
      (nextId store) (writtenPost store user r title body tags) req hv hfound
    rw [he]
    rw [hupd]
    simp [applyPatch]

/-- Concrete instance for claim C6 (amended): creating from a raw body
holding an img-src tag stores exactly that tag in image, and a following
tags-only update recomputes image to the fallback of the absent body. -/
theorem c6_image_amended_witness :
    (write [] ⟨"u1", "alice"⟩ 0 ⟨some "t", some c6RawBody, some ["x"]⟩).post.map Post.image =
      some (renderToken (HtmlToken.tagOpen "img" [("src", "http://a")])) ∧
    (update (write [] ⟨"u1", "alice"⟩ 0 ⟨some "t", some c6RawBody, some ["x"]⟩).store 1
        (nextId []) ⟨none, none, some ["y"]⟩).post.map Post.image =
      some (parseImageToBody 1 none) := by
  have h := c6_image_amended [] ⟨"u1", "alice"⟩ 0 1 "t" c6RawBody ["x"]
    ⟨none, none, some ["y"]⟩ (HtmlToken.tagOpen "img" [("src", "http://a")])
    (by decide) (by decide) (by decide) (by decide) (by decide)
  exact ⟨h.1, h.2.2⟩

end BlogBackend
